import Mathlib

/-!
Verification of the self-healing compiler pipeline (Go sources).

Shallow embedding conventions:
* Go strings are modelled as `List Char` (text being processed) or `String`
  (values only assigned and compared literally: statuses, abort reasons,
  language switches, strategy names).  `len` of an ASCII Go string equals the
  char-list length.
* The external collaborators (Ollama model client, per-language compile
  backends, context cancellation, the wall clock) are modelled as an
  environment oracle `IterEnv`, exactly at the interface the controller
  consumes: the controller's own logic (guards, prompt building, extraction,
  error analysis) is embedded concretely from the source.
* WebSocket sends are I/O with no effect on the job state and are omitted.
-/

namespace SelfHealing

/-- ErrorType from the Go source (core types file): classification of a
compilation/execution error.  Constructor names `syntaxError`/`typeError`
stand for Go's `ErrorTypeSyntax`/`ErrorTypeType`. -/
inductive ErrorType where
  | unknown
  | infrastructure
  | syntaxError
  | typeError
  | logic
  | runtime
  | success
  deriving DecidableEq, Repr

/-- The Go `ErrorType.String()` method, as a char list. -/
def errorTypeString : ErrorType → List Char
  | ErrorType.infrastructure => "infrastructure".toList
  | ErrorType.syntaxError => "syntax".toList
  | ErrorType.typeError => "type".toList
  | ErrorType.logic => "logic".toList
  | ErrorType.runtime => "runtime".toList
  | ErrorType.success => "success".toList
  | ErrorType.unknown => "unknown".toList

/-- CompilationResult from the Go source.  `ExecutionTime` is a duration in
nanoseconds, inert in the embedded logic. -/
structure CompilationResult where
  Success : Bool
  ExitCode : Int
  CompileErrors : List (List Char)
  TestErrors : List (List Char)
  Output : List Char
  ErrorType : ErrorType
  ExecutionTime : Nat
  deriving DecidableEq, Repr

/-- ExecutionMetrics from the Go source. -/
structure ExecutionMetrics where
  IterationCount : Nat
  TotalTime : Nat
  PromptSizes : List Nat
  LLMResponseTimes : List Nat
  LastErrorType : ErrorType
  SameErrorCount : Nat
  ExtractedLanguages : List String
  deriving DecidableEq, Repr

/-- LLMContext from the Go source. -/
structure LLMContext where
  ConversationTokens : List Int
  PromptHistory : List (List Char)
  ErrorHistory : List ErrorType
  AttemptCount : Nat
  LastErrorMessage : List Char
  deriving DecidableEq, Repr

/-- ExecutionJob from the Go source.  The `Ctx`/`Cancel` handles and the wall
clock live in the environment oracle; `StartTime`/`Timeout` are kept as inert
data (the timeout comparison is an oracle bit). -/
structure ExecutionJob where
  ID : String
  Language : String
  UserPrompt : List Char
  Model : String
  MaxIterations : Nat
  Timeout : Nat
  Status : String
  StartTime : Nat
  LLMCtx : LLMContext
  Metrics : ExecutionMetrics
  FinalResult : Option CompilationResult
  AbortReason : String
  deriving DecidableEq, Repr

/-- Configuration constant MaxPromptSize = 50 * 1024 from the Go source. -/
def MaxPromptSize : Nat := 50 * 1024

/-- Configuration constant SameErrorThreshold = 3 from the Go source. -/
def SameErrorThreshold : Nat := 3

/-- Configuration constant DefaultMaxIterations = 10 from the Go source. -/
def DefaultMaxIterations : Nat := 10

/-! ## String utilities mirroring Go's strings package (on `List Char`) -/

/-- The backtick character (U+0060), written by code point. -/
def btick : Char := Char.ofNat 96

/-- Go `unicode.IsSpace` restricted to ASCII whitespace, as used by
`strings.TrimSpace`. -/
def isSpaceChar (c : Char) : Bool :=
  c == ' ' || c == '\t' || c == '\n' || c == '\x0d' || c == '\x0b' || c == '\x0c'

/-- Lowercase ASCII letter test, for the regex class `[a-z]`. -/
def isLowerAlpha (c : Char) : Bool :=
  'a' ≤ c && c ≤ 'z'

/-- Whitespace class `\s` of Go's regexp package: `[\t\n\f\r ]`. -/
def isRegexSpace (c : Char) : Bool :=
  c == '\t' || c == '\n' || c == '\x0c' || c == '\x0d' || c == ' '

/-- Does `s` start with the pattern `p` (Go `strings.HasPrefix`)?  Arguments:
subject first, pattern second. -/
def startsWithCL : List Char → List Char → Bool
  | _, [] => true
  | [], _ :: _ => false
  | a :: s, b :: p => a == b && startsWithCL s p

/-- Go `strings.Contains s pat`: `pat` occurs as a contiguous substring. -/
def containsSub : List Char → List Char → Bool
  | [], pat => startsWithCL [] pat
  | a :: s, pat => startsWithCL (a :: s) pat || containsSub s pat

/-- Go `strings.Index s pat`: position of the first occurrence, `none` for -1. -/
def indexOfSub (pat : List Char) : List Char → Option Nat
  | [] => if startsWithCL [] pat then some 0 else none
  | a :: s =>
    if startsWithCL (a :: s) pat then some 0
    else (indexOfSub pat s).map (· + 1)

/-- Go `strings.TrimSpace`. -/
def trimSpace (s : List Char) : List Char :=
  ((s.dropWhile isSpaceChar).reverse.dropWhile isSpaceChar).reverse

/-- Go `strings.Trim s cutset` for a one-character cutset. -/
def trimCharBoth (c : Char) (s : List Char) : List Char :=
  ((s.dropWhile (· == c)).reverse.dropWhile (· == c)).reverse

/-- Go `strings.ToLower` (ASCII). -/
def toLowerCL (s : List Char) : List Char :=
  s.map Char.toLower

/-- Go `strings.Join xs sep`. -/
def joinWithSep (sep : List Char) : List (List Char) → List Char
  | [] => []
  | [x] => x
  | x :: y :: rest => x ++ sep ++ joinWithSep sep (y :: rest)

/-- One splitting step bounded by fuel: Go `strings.Split` (non-overlapping,
leftmost-first).  The fuel `s.length + 1` always suffices for a non-empty
separator. -/
def splitOnAux (sep : List Char) : Nat → List Char → List (List Char)
  | 0, s => [s]
  | fuel + 1, s =>
    match indexOfSub sep s with
    | none => [s]
    | some i => s.take i :: splitOnAux sep fuel (s.drop (i + sep.length))

/-- Go `strings.Split s sep`. -/
def splitOnSub (sep s : List Char) : List (List Char) :=
  splitOnAux sep (s.length + 1) s

/-! ## Extraction module (modules/extraction/strategies.go)

The regexes of the source are specialised matchers here.  The generic fenced
block pattern is Go's
`(?s)` + three backticks + `(?:[a-z]+)?\n(.*?)` + three backticks:
a match starts with three backticks, then (by first-match backtracking with a
non-space continuation) the maximal run of lowercase letters, then a newline,
then the shortest body closed by three backticks.  `FindAllStringSubmatch`
scans left to right, resuming after each match. -/

/-- Three backticks, the code fence delimiter. -/
def fence3 : List Char := [btick, btick, btick]

/-- The opening of the go-tagged fence pattern: three backticks + "go" + newline. -/
def goFence : List Char := fence3 ++ ['g', 'o', '\n']

/-- Literal "package main". -/
def pmLit : List Char := "package main".toList

/-- Literal "package". -/
def pkgLit : List Char := "package".toList

/-- Literal "package main" + newline, the synthesized main header. -/
def pkgMainNL : List Char := "package main\n".toList

/-- The synthesized test header: "package main", newline, import testing, newline. -/
def pkgTestHdr : List Char := ("package main\n" ++ "import \"testing\"\n").toList

/-- Literal "func Test". -/
def funcTestLit : List Char := "func Test".toList

/-- Literal "func". -/
def funcLit : List Char := "func".toList

/-- Literal "Test". -/
def testLit : List Char := "Test".toList

/-- Match the opening of a generic fenced block at the head of `s`:
three backticks, an optional lowercase language tag, a newline.  Returns the
text after the newline. -/
def matchFenceHead (s : List Char) : Option (List Char) :=
  if startsWithCL s fence3 then
    match (s.drop 3).dropWhile isLowerAlpha with
    | c :: body => if c == '\n' then some body else none
    | [] => none
  else none

/-- Match the opening of a go-tagged fenced block at the head of `s`. -/
def matchGoFenceHead (s : List Char) : Option (List Char) :=
  if startsWithCL s goFence then some (s.drop goFence.length) else none

/-- Split `body` at the first closing fence (the lazy capture `(.*?)` before
three backticks): the captured text and the remainder after the fence. -/
def splitAtFence : List Char → Option (List Char × List Char)
  | [] => none
  | c :: rest =>
    if startsWithCL (c :: rest) fence3 then some ([], rest.drop 2)
    else (splitAtFence rest).map (fun p => (c :: p.1, p.2))

/-- Fuel-bounded scan collecting all captures of the generic fenced-block
pattern.  The scan advances at least one character per fuel unit, so fuel
`s.length` is always enough. -/
def findBlocksAux : Nat → List Char → List (List Char)
  | 0, _ => []
  | _ + 1, [] => []
  | fuel + 1, c :: rest =>
    match matchFenceHead (c :: rest) with
    | some body =>
      match splitAtFence body with
      | some (cap, rem) => cap :: findBlocksAux fuel rem
      | none => findBlocksAux fuel rest
    | none => findBlocksAux fuel rest

/-- All captures of the generic fenced-block regex over `s`
(Go `FindAllStringSubmatch` with the untagged pattern). -/
def findCodeBlocks (s : List Char) : List (List Char) :=
  findBlocksAux s.length s

/-- Fuel-bounded scan for go-tagged fenced blocks, same shape as
`findBlocksAux`. -/
def findGoBlocksAux : Nat → List Char → List (List Char)
  | 0, _ => []
  | _ + 1, [] => []
  | fuel + 1, c :: rest =>
    match matchGoFenceHead (c :: rest) with
    | some body =>
      match splitAtFence body with
      | some (cap, rem) => cap :: findGoBlocksAux fuel rem
      | none => findGoBlocksAux fuel rest
    | none => findGoBlocksAux fuel rest

/-- All captures of the go-tagged fenced-block regex over `s`. -/
def findGoBlocks (s : List Char) : List (List Char) :=
  findGoBlocksAux s.length s

/-- Does the test-marker regex `func\s+Test` (the part after the `(?m)^`
anchor) match at the head of `s`?  First-match semantics force the maximal
run of `\s` characters. -/
def markerAt (s : List Char) : Bool :=
  startsWithCL s funcLit &&
    (let r := s.drop 4
     let r2 := r.dropWhile isRegexSpace
     decide (r2.length < r.length) && startsWithCL r2 testLit)

/-- Scan for the first line-start position where `markerAt` holds; the flag
records whether the current position is a line start. -/
def findMarkerAux : List Char → Bool → Option Nat
  | [], _ => none
  | c :: rest, ls =>
    if ls && markerAt (c :: rest) then some 0
    else (findMarkerAux rest (c == '\n')).map (· + 1)

/-- Go `FindStringIndex` of the multiline regex `(?m)^func\s+Test`. -/
def findMarkerIdx (s : List Char) : Option Nat :=
  findMarkerAux s true

/-- StandardFormatStrategy.Extract: pair the first two generic fenced blocks;
reject when fewer than two blocks or either is empty after trimming. -/
def standardFormatExtract (response : List Char) : Option (List Char × List Char) :=
  match findCodeBlocks response with
  | b0 :: b1 :: _ =>
    let mainCode := trimSpace b0
    let testCode := trimSpace b1
    if mainCode.length == 0 || testCode.length == 0 then none
    else some (mainCode, testCode)
  | _ => none

/-- LanguageTagStrategy.Extract: same pairing restricted to go-tagged blocks. -/
def languageTagExtract (response : List Char) : Option (List Char × List Char) :=
  match findGoBlocks response with
  | b0 :: b1 :: _ =>
    let mainCode := trimSpace b0
    let testCode := trimSpace b1
    if mainCode.length == 0 || testCode.length == 0 then none
    else some (mainCode, testCode)
  | _ => none

/-- TestMarkerStrategy.Extract: split at the first line starting with
`func Test`, synthesize missing package headers, strip stray backticks,
reject halves shorter than 30 characters. -/
def testMarkerExtract (response : List Char) : Option (List Char × List Char) :=
  match findMarkerIdx response with
  | none => none
  | some i =>
    let mainCode := trimSpace (response.take i)
    let testCode := trimSpace (response.drop i)
    let mainCode := if startsWithCL mainCode pkgLit then mainCode else pkgMainNL ++ mainCode
    let testCode := if startsWithCL testCode pkgLit then testCode else pkgTestHdr ++ testCode
    let mainCode := trimCharBoth btick mainCode
    let testCode := trimCharBoth btick testCode
    if mainCode.length < 30 || testCode.length < 30 then none
    else some (mainCode, testCode)

/-- PackageMainStrategy.Extract: split on "package main" occurrences, rebuild
the second and third parts, strip backticks, reject parts shorter than 50. -/
def packageMainExtract (response : List Char) : Option (List Char × List Char) :=
  match splitOnSub pmLit response with
  | _ :: p1 :: p2 :: _ =>
    let mainCode := trimSpace (pmLit ++ p1)
    let testCode := trimSpace (pmLit ++ p2)
    let mainCode := trimCharBoth btick mainCode
    let testCode := trimCharBoth btick testCode
    let mainCode := trimSpace mainCode
    let testCode := trimSpace testCode
    if mainCode.length < 50 || testCode.length < 50 then none
    else some (mainCode, testCode)
  | _ => none

/-- SingleFileStrategy.Extract: first fenced block (or, absent any fence, the
raw text when longer than 50) as main code; split at "func Test" inside the
block when present. -/
def singleFileExtract (response : List Char) : Option (List Char × List Char) :=
  match findCodeBlocks response with
  | [] =>
    if response.length > 50 then some (trimSpace response, [])
    else none
  | b0 :: _ =>
    let code := trimSpace b0
    if containsSub code funcTestLit then
      let idx := (indexOfSub funcTestLit code).getD 0
      let mainCode := trimSpace (code.take idx)
      let testCode := trimSpace (code.drop idx)
      let testCode := if startsWithCL testCode pkgLit then testCode else pkgTestHdr ++ testCode
      some (mainCode, testCode)
    else some (code, [])

/-- Extractor.Extract: try the five strategies in registration order
(standard, language-tag, test-marker, package-main, single-file) and return
the first success with its strategy name. -/
def extractorExtract (response : List Char) : Option (List Char × List Char × String) :=
  match standardFormatExtract response with
  | some (m, t) => some (m, t, "standard_format")
  | none =>
    match languageTagExtract response with
    | some (m, t) => some (m, t, "language_tag_split")
    | none =>
      match testMarkerExtract response with
      | some (m, t) => some (m, t, "test_marker_split")
      | none =>
        match packageMainExtract response with
        | some (m, t) => some (m, t, "package_main_split")
        | none =>
          match singleFileExtract response with
          | some (m, t) => some (m, t, "single_file_fallback")
          | none => none

/-- Extractor.ExtractWithFallback: the chain result, else any fenced block as
an emergency fallback, else the trimmed raw response. -/
def extractWithFallback (response : List Char) : List Char × List Char × String :=
  match extractorExtract response with
  | some r => r
  | none =>
    match findCodeBlocks response with
    | b0 :: rest =>
      (trimSpace b0,
       (match rest with | b1 :: _ => trimSpace b1 | [] => []),
       "emergency_fallback")
    | [] => (trimSpace response, [], "raw_response")

/-! ## Error classifier (go_compiler_v2, classifyGoError) -/

/-- ErrorTypeGo from the go_compiler_v2 source (same taxonomy as `ErrorType`,
declared separately there).  `syntaxError`/`typeError` stand for Go's
`ErrorTypeGoSyntax`/`ErrorTypeGoType`. -/
inductive ErrorTypeGo where
  | unknown
  | infrastructure
  | syntaxError
  | typeError
  | logic
  | runtime
  | success
  deriving DecidableEq, Repr

/-- Infrastructure pattern list of classifyGoError. -/
def infraPatterns : List (List Char) :=
  ["go.mod already exists".toList, "cannot find package".toList,
   "not in GOPATH".toList, "invalid go.mod".toList,
   "module not found".toList, "go get".toList]

/-- Syntax pattern list of classifyGoError. -/
def syntaxPatterns : List (List Char) :=
  ["syntax error".toList, "expected".toList, "unexpected".toList,
   "invalid operation".toList, "unclosed".toList]

/-- Type pattern list of classifyGoError. -/
def typePatterns : List (List Char) :=
  ["undefined".toList, "type".toList, "cannot use".toList,
   "mismatched types".toList, "wrong number of arguments".toList,
   "not a function".toList]

/-- Runtime pattern list of classifyGoError. -/
def runtimePatterns : List (List Char) :=
  ["panic".toList, "fatal".toList, "signal: segmentation".toList,
   "runtime error".toList]

/-- Does any pattern of the list occur (lowercased) in the lowercased output?
This is the per-category for-loop of classifyGoError: each iteration returns
the category on a hit, so the loop equals an existence check. -/
def matchesAny (out : List Char) (pats : List (List Char)) : Bool :=
  pats.any (fun p => containsSub out (toLowerCL p))

/-- classifyGoError from the go_compiler_v2 source: lowercase the raw output,
try the pattern categories in order infrastructure, syntax, type, runtime,
then fall back on test errors (logic), compile errors (type), unknown. -/
def classifyGoError (output : List Char)
    (compileErrors testErrors : List (List Char)) : ErrorTypeGo :=
  let out := toLowerCL output
  if matchesAny out infraPatterns then ErrorTypeGo.infrastructure
  else if matchesAny out syntaxPatterns then ErrorTypeGo.syntaxError
  else if matchesAny out typePatterns then ErrorTypeGo.typeError
  else if matchesAny out runtimePatterns then ErrorTypeGo.runtime
  else if 0 < testErrors.length then ErrorTypeGo.logic
  else if 0 < compileErrors.length then ErrorTypeGo.typeError
  else ErrorTypeGo.unknown

/-! ## Prompt builder (buildPrompt, truncate, format instruction constants) -/

/-- Go constant goFormatInstructions (raw-string literal of the source). -/
def goFormatInstructions : List Char :=
  ("\nIMPORTANT: Generate Go code in this exact format:\n- Two code blocks separated by a blank line\n- First block: package main with main() function and helper functions\n- Second block: package main with import \"testing\" and Test* functions\n- Use ONLY \"package main\" in both blocks\n- Provide code only, no explanations\n").toList

/-- Go constant pythonFormatInstructions. -/
def pythonFormatInstructions : List Char :=
  ("\nIMPORTANT: Generate Python code in this exact format:\n- Two code blocks separated by a blank line\n- First block: main code with functions and main() execution\n- Second block: import unittest or pytest and test functions\n- Provide code only, no explanations\n").toList

/-- Go constant cppFormatInstructions. -/
def cppFormatInstructions : List Char :=
  ("\nIMPORTANT: Generate C++ code in this exact format:\n- Two code blocks separated by a blank line\n- First block: main.cpp with function implementations and main()\n- Second block: test functions using assert or gtest\n- Include necessary #include statements\n- Provide code only, no explanations\n").toList

/-- The truncate helper of the controller: keep the first `maxLen` characters
and mark the cut with an ellipsis. -/
def truncate (s : List Char) (maxLen : Nat) : List Char :=
  if s.length ≤ maxLen then s else s.take maxLen ++ "...".toList

/-- The unconditional part of buildPrompt: the user prompt followed by the
language-specific format instructions (the Go switch has no default case). -/
def basePrompt (job : ExecutionJob) : List Char :=
  job.UserPrompt ++
    (match job.Language with
     | "go" => goFormatInstructions
     | "python" => pythonFormatInstructions
     | "cpp" => cppFormatInstructions
     | _ => [])

/-- The error-feedback section appended by buildPrompt from the second
iteration on: previous iteration number, last error type name, last error
message truncated at 500 characters, and the fix-and-regenerate instruction. -/
def feedbackSection (job : ExecutionJob) (iteration : Nat) : List Char :=
  "\n\n=== ERROR FEEDBACK FROM ITERATION ".toList
    ++ Nat.toDigits 10 (iteration - 1)
    ++ " ===\n".toList
    ++ ("Error Type: ".toList ++ errorTypeString job.Metrics.LastErrorType ++ "\n".toList)
    ++ ("Error Message: ".toList ++ truncate job.LLMCtx.LastErrorMessage 500 ++ "\n".toList)
    ++ "Please fix the error and regenerate the code.\n".toList

/-- buildPrompt from the controller source: prompt text and its size. -/
def buildPrompt (job : ExecutionJob) (iteration : Nat) : List Char × Nat :=
  let p := basePrompt job ++
    (if 1 < iteration ∧ 0 < job.LLMCtx.ErrorHistory.length then
       feedbackSection job iteration
     else [])
  (p, p.length)

/-! ## Job controller (RunCompilationJob) -/

/-- Outcome of the model-client call `GetOllamaResponse` as seen by the
controller: an error, or a response text with the updated conversation
tokens. -/
inductive LLMOutcome where
  | failure
  | ok (response : List Char) (tokens : List Int)
  deriving DecidableEq, Repr

/-- Outcome of the compile-backend call `compileLanguage` as seen by the
controller: an invocation error, or a structured result. -/
inductive CompileOutcome where
  | failure
  | ok (result : CompilationResult)
  deriving DecidableEq, Repr

/-- The external world of one loop iteration: the cancellation signal, the
wall-clock budget comparison, the model call and the compile-backend call. -/
structure IterEnv where
  ctxDone : Bool
  timedOut : Bool
  llm : LLMOutcome
  llmTime : Nat
  compile : CompileOutcome
  deriving Repr

/-- Result of one loop-body pass: `ret` models a Go `return` (the job in its
final pre-defer state), `next` a fall-through or `continue` to the next
iteration. -/
inductive StepRes where
  | ret (job : ExecutionJob)
  | next (job : ExecutionJob)
  deriving DecidableEq, Repr

/-- The stuck-loop guard of Phase 5: the last `SameErrorThreshold` entries of
the (already updated) error history all equal the current error type, which
is not success.  `false` also when the history is still shorter than the
threshold. -/
def stuckCheck (hist : List ErrorType) (current : ErrorType) : Bool :=
  if SameErrorThreshold ≤ hist.length then
    (hist.drop (hist.length - SameErrorThreshold)).all (fun e => decide (e = current))
      && !(decide (current = ErrorType.success))
  else false

/-- Phase 5 of the loop body (error analysis and loop continuation): record
the error, then the infrastructure branch, the stuck-loop guard, and the
iteration-cap check. -/
def analyzeFailure (job : ExecutionJob) (iteration : Nat)
    (result : CompilationResult) : StepRes :=
  let job := { job with
    LLMCtx := { job.LLMCtx with
      ErrorHistory := job.LLMCtx.ErrorHistory ++ [result.ErrorType],
      LastErrorMessage := joinWithSep "; ".toList result.CompileErrors },
    Metrics := { job.Metrics with LastErrorType := result.ErrorType } }
  if result.ErrorType = ErrorType.infrastructure then
    if iteration < 2 then StepRes.next job
    else StepRes.ret { job with
      Status := "aborted", AbortReason := "infrastructure_error_persistent" }
  else if stuckCheck job.LLMCtx.ErrorHistory result.ErrorType then
    StepRes.ret { job with
      Status := "aborted", AbortReason := "same_error_threshold",
      Metrics := { job.Metrics with SameErrorCount := SameErrorThreshold } }
  else if job.MaxIterations ≤ iteration then
    StepRes.ret { job with
      Status := "aborted", AbortReason := "max_iterations_reached",
      FinalResult := some result }
  else StepRes.next job

/-- One pass of the main iteration loop of RunCompilationJob, phases in source
order: cancellation check, timeout check, iteration count, prompt build and
size guard, model call, empty-response check, extraction, compile call,
success check, error analysis. -/
def stepIteration (env : IterEnv) (iteration : Nat) (job : ExecutionJob) : StepRes :=
  if env.ctxDone then
    StepRes.ret { job with Status := "aborted", AbortReason := "user_cancelled" }
  else if env.timedOut then
    StepRes.ret { job with Status := "aborted", AbortReason := "total_timeout" }
  else
  let job := { job with Metrics := { job.Metrics with IterationCount := iteration } }
  let pr := buildPrompt job iteration
  if pr.2 > MaxPromptSize then
    StepRes.ret { job with Status := "aborted", AbortReason := "prompt_size_exceeded" }
  else
  let job := { job with Metrics := { job.Metrics with
    PromptSizes := job.Metrics.PromptSizes ++ [pr.2] } }
  let job := { job with Metrics := { job.Metrics with
    LLMResponseTimes := job.Metrics.LLMResponseTimes ++ [env.llmTime] } }
  match env.llm with
  | LLMOutcome.failure =>
    StepRes.ret { job with Status := "aborted", AbortReason := "llm_error" }
  | LLMOutcome.ok response tokens =>
    if response.isEmpty then
      StepRes.ret { job with Status := "aborted", AbortReason := "empty_llm_response" }
    else
    let job := { job with LLMCtx := { job.LLMCtx with
      ConversationTokens := tokens,
      PromptHistory := job.LLMCtx.PromptHistory ++ [pr.1] } }
    let ext := extractWithFallback response
    if ext.1.isEmpty then
      StepRes.ret { job with Status := "aborted", AbortReason := "extraction_failed" }
    else
    match env.compile with
    | CompileOutcome.failure =>
      StepRes.ret { job with Status := "aborted", AbortReason := "compilation_failed" }
    | CompileOutcome.ok result =>
      if result.Success then
        StepRes.ret { job with FinalResult := some result, Status := "completed" }
      else analyzeFailure job iteration result

/-- The for-loop of RunCompilationJob: iterations `iteration`, `iteration+1`,
... while fuel lasts; fuel `job.MaxIterations` with start index 1 makes the
loop condition `iteration <= MaxIterations`.  When the loop falls through,
the tail of the function sets completed/unknown. -/
def runIter (env : Nat → IterEnv) : Nat → Nat → ExecutionJob → ExecutionJob
  | 0, _, job => { job with Status := "completed", AbortReason := "unknown" }
  | fuel + 1, iteration, job =>
    match stepIteration (env iteration) iteration job with
    | StepRes.ret j => j
    | StepRes.next j => runIter env fuel (iteration + 1) j

/-- The deferred recovery handler of RunCompilationJob, run when the function
returns: it unconditionally sets Status to "completed" (in the source the
recover branch additionally sets AbortReason to "internal_panic"; panics do
not arise in this embedding). -/
def deferredFinalize (job : ExecutionJob) : ExecutionJob :=
  { job with Status := "completed" }

/-- RunCompilationJob: mark the job running, execute the bounded loop, then
apply the deferred handler. -/
def runCompilationJob (env : Nat → IterEnv) (job : ExecutionJob) : ExecutionJob :=
  let job := { job with Status := "running" }
  deferredFinalize (runIter env job.MaxIterations 1 job)

/-! ## Concrete fixtures for witnesses and counterexamples -/

/-- An empty conversation state. -/
def emptyLLMCtx : LLMContext :=
  { ConversationTokens := [], PromptHistory := [], ErrorHistory := [],
    AttemptCount := 0, LastErrorMessage := [] }

/-- Fresh metrics. -/
def emptyMetrics : ExecutionMetrics :=
  { IterationCount := 0, TotalTime := 0, PromptSizes := [],
    LLMResponseTimes := [], LastErrorType := ErrorType.unknown,
    SameErrorCount := 0, ExtractedLanguages := [] }

/-- A freshly submitted job with an iteration cap of 5 and a language outside
the instruction switch. -/
def jobBase : ExecutionJob :=
  { ID := "j1", Language := "x", UserPrompt := "task".toList, Model := "m",
    MaxIterations := 5, Timeout := 0, Status := "pending", StartTime := 0,
    LLMCtx := emptyLLMCtx, Metrics := emptyMetrics,
    FinalResult := none, AbortReason := "" }

/-- A plain model answer with no code fence, longer than 50 characters, so
extraction recovers a non-empty main code via the single-file fallback. -/
def respPlain : List Char :=
  "this is a plain answer without any code fences at all, okay then".toList

/-- A non-success result classified as a syntax error. -/
def resSyntax : CompilationResult :=
  { Success := false, ExitCode := 1, CompileErrors := ["main.go:1: bad".toList],
    TestErrors := [], Output := "syntax error".toList,
    ErrorType := ErrorType.syntaxError, ExecutionTime := 0 }

/-- A non-success result classified as an infrastructure error. -/
def resInfra : CompilationResult :=
  { resSyntax with
    Output := "go.mod already exists".toList,
    ErrorType := ErrorType.infrastructure }

/-- A successful result. -/
def resOk : CompilationResult :=
  { Success := true, ExitCode := 0, CompileErrors := [], TestErrors := [],
    Output := "ok".toList, ErrorType := ErrorType.success, ExecutionTime := 0 }

/-- An environment whose cancellation signal fires at every iteration. -/
def envCancel : Nat → IterEnv := fun _ =>
  { ctxDone := true, timedOut := false, llm := LLMOutcome.failure, llmTime := 0,
    compile := CompileOutcome.failure }

/-- An environment: syntax error on iteration 1, then an infrastructure error
on iteration 2 — the first infrastructure error of the job. -/
def envInfraSecond : Nat → IterEnv := fun i =>
  { ctxDone := false, timedOut := false, llm := LLMOutcome.ok respPlain [7],
    llmTime := 3,
    compile := CompileOutcome.ok (if i = 1 then resSyntax else resInfra) }

/-- An environment: infrastructure error on iteration 1 (triggering the
controller's "retry"), then success on iteration 2. -/
def envInfraRetry : Nat → IterEnv := fun i =>
  { ctxDone := false, timedOut := false, llm := LLMOutcome.ok respPlain [7],
    llmTime := 3,
    compile := CompileOutcome.ok (if i = 1 then resInfra else resOk) }

/-! ## Claim theorems -/

set_option maxRecDepth 10000 in
/-- C1 (code bug).  The claim says "completed" and "aborted" are absorbing:
once RunCompilationJob sets job.Status to "aborted", no later step — the
deferred recovery handler included — changes it.  The code violates this:
the deferred handler runs `job.Status = "completed"` unconditionally on every
return, so a job the loop aborted (here: user cancellation at iteration 1,
Status "aborted", AbortReason "user_cancelled" when the loop returns) ends
with Status "completed" while still carrying its abort reason. -/
theorem c1_terminal_states_not_absorbing :
    (runIter envCancel 5 1 { jobBase with Status := "running" }).Status = "aborted"
    ∧ (runIter envCancel 5 1 { jobBase with Status := "running" }).AbortReason
        = "user_cancelled"
    ∧ (runCompilationJob envCancel jobBase).Status = "completed"
    ∧ (runCompilationJob envCancel jobBase).AbortReason = "user_cancelled" := by
  decide

set_option maxRecDepth 10000 in
/-- C2 (code bug).  The claim says an infrastructure error is retried once
without a new LLM generation, and `infrastructure_error_persistent` fires
only when an infrastructure error recurs.  The code instead branches on the
iteration number (`iteration < 2`): the job's first infrastructure error,
occurring at iteration 2 after a syntax error, aborts immediately as
"persistent" (error history holds exactly one infrastructure entry); and when
the infrastructure error occurs at iteration 1, the "retry" is a plain
`continue`, whose next pass calls the model again — two prompts are consumed
for one generation-worth of progress. -/
theorem c2_infra_retry_code_bug :
    ((runCompilationJob envInfraSecond jobBase).AbortReason
        = "infrastructure_error_persistent"
      ∧ (runCompilationJob envInfraSecond jobBase).LLMCtx.ErrorHistory
          = [ErrorType.syntaxError, ErrorType.infrastructure])
    ∧ ((runCompilationJob envInfraRetry jobBase).LLMCtx.PromptHistory.length = 2
      ∧ (runCompilationJob envInfraRetry jobBase).FinalResult = some resOk) := by
  decide

/-- Helper for the stuck-loop guard: on a history ending in three copies of a
non-success kind the guard fires. -/
lemma stuckCheck_append_three (pre : List ErrorType) (k : ErrorType)
    (hks : k ≠ ErrorType.success) :
    stuckCheck (pre ++ [k, k, k]) k = true := by
  have hlen : (pre ++ [k, k, k]).length - 3 = pre.length := by simp
  have hdrop : (pre ++ [k, k, k]).drop ((pre ++ [k, k, k]).length - 3) = [k, k, k] := by
    rw [hlen, List.drop_left]
  simp [stuckCheck, SameErrorThreshold, hdrop, hks]

/-- C3 (confirmed).  When the job's error history together with the current
result ends in three identical kinds `k` that are neither success nor
infrastructure, the Phase-5 evaluation returns (aborts) with Status
"aborted", AbortReason "same_error_threshold" and Metrics.SameErrorCount 3 —
whatever the earlier prefix `pre` of the history recorded. -/
theorem c3_same_error_threshold (job : ExecutionJob) (iteration : Nat)
    (result : CompilationResult) (pre : List ErrorType) (k : ErrorType)
    (hhist : job.LLMCtx.ErrorHistory = pre ++ [k, k])
    (hk : result.ErrorType = k)
    (hks : k ≠ ErrorType.success)
    (hki : k ≠ ErrorType.infrastructure) :
    analyzeFailure job iteration result = StepRes.ret { job with
      Status := "aborted", AbortReason := "same_error_threshold",
      LLMCtx := { job.LLMCtx with
        ErrorHistory := job.LLMCtx.ErrorHistory ++ [result.ErrorType],
        LastErrorMessage := joinWithSep "; ".toList result.CompileErrors },
      Metrics := { job.Metrics with
        LastErrorType := result.ErrorType,
        SameErrorCount := 3 } } := by
  have hstuck : stuckCheck (job.LLMCtx.ErrorHistory ++ [result.ErrorType])
      result.ErrorType = true := by
    rw [hhist, hk]
    have : pre ++ [k, k] ++ [k] = pre ++ [k, k, k] := by simp
    rw [this]
    exact stuckCheck_append_three pre k hks
  have hne : ¬ result.ErrorType = ErrorType.infrastructure := by
    rw [hk]; exact hki
  simp only [analyzeFailure, if_neg hne, hstuck, if_pos, SameErrorThreshold, if_true]

/-- C3 witness: a job whose history is logic, syntax, syntax and whose current
result is another syntax error aborts with the stuck-loop reason. -/
theorem c3_witness :
    analyzeFailure
        { jobBase with LLMCtx := { emptyLLMCtx with
            ErrorHistory := [ErrorType.logic, ErrorType.syntaxError, ErrorType.syntaxError] } }
        4 resSyntax
      = StepRes.ret { jobBase with
          Status := "aborted", AbortReason := "same_error_threshold",
          LLMCtx := { emptyLLMCtx with
            ErrorHistory := [ErrorType.logic, ErrorType.syntaxError, ErrorType.syntaxError,
              ErrorType.syntaxError],
            LastErrorMessage := joinWithSep "; ".toList resSyntax.CompileErrors },
          Metrics := { emptyMetrics with
            LastErrorType := ErrorType.syntaxError,
            SameErrorCount := 3 } } := by
  have h := c3_same_error_threshold
    { jobBase with LLMCtx := { emptyLLMCtx with
        ErrorHistory := [ErrorType.logic, ErrorType.syntaxError, ErrorType.syntaxError] } }
    4 resSyntax [ErrorType.logic] ErrorType.syntaxError
    (by decide) rfl (by decide) (by decide)
  exact h

/-- C5 (confirmed).  At the iteration index equal to the job's cap, a
non-success, non-infrastructure result for which the stuck-loop guard does
not fire makes the Phase-5 evaluation abort with "max_iterations_reached",
retaining the iteration's result as the final result. -/
theorem c5_max_iterations (job : ExecutionJob) (result : CompilationResult)
    (_hs : result.Success = false)
    (hki : result.ErrorType ≠ ErrorType.infrastructure)
    (hstuck : stuckCheck (job.LLMCtx.ErrorHistory ++ [result.ErrorType])
        result.ErrorType = false) :
    analyzeFailure job job.MaxIterations result = StepRes.ret { job with
      Status := "aborted", AbortReason := "max_iterations_reached",
      LLMCtx := { job.LLMCtx with
        ErrorHistory := job.LLMCtx.ErrorHistory ++ [result.ErrorType],
        LastErrorMessage := joinWithSep "; ".toList result.CompileErrors },
      Metrics := { job.Metrics with LastErrorType := result.ErrorType },
      FinalResult := some result } := by
  simp only [analyzeFailure, if_neg hki, hstuck, Bool.false_eq_true, if_false,
    le_refl, if_true]

/-- C5 witness: a job with cap 2 at iteration 2, history logic, current
syntax error — the evaluation aborts with max_iterations_reached and stores
the result. -/
theorem c5_witness :
    analyzeFailure
        { jobBase with
          MaxIterations := 2,
          LLMCtx := { emptyLLMCtx with ErrorHistory := [ErrorType.logic] } }
        2 resSyntax
      = StepRes.ret { jobBase with
          MaxIterations := 2,
          Status := "aborted", AbortReason := "max_iterations_reached",
          LLMCtx := { emptyLLMCtx with
            ErrorHistory := [ErrorType.logic, ErrorType.syntaxError],
            LastErrorMessage := joinWithSep "; ".toList resSyntax.CompileErrors },
          Metrics := { emptyMetrics with LastErrorType := ErrorType.syntaxError },
          FinalResult := some resSyntax } := by
  have h := c5_max_iterations
    { jobBase with
      MaxIterations := 2,
      LLMCtx := { emptyLLMCtx with ErrorHistory := [ErrorType.logic] } }
    resSyntax rfl (by decide) (by decide)
  exact h

/-- Changing only Metrics.IterationCount does not change the built prompt:
buildPrompt reads the user prompt, the language, the error history, the last
error type and the last error message. -/
lemma buildPrompt_iterCount (job : ExecutionJob) (n iteration : Nat) :
    buildPrompt { job with Metrics := { job.Metrics with IterationCount := n } }
        iteration
      = buildPrompt job iteration := rfl

/-- C4 (confirmed).  In an iteration that reaches the prompt build (no
cancellation, no timeout), a prompt whose size exceeds MaxPromptSize makes
the loop body return at once with AbortReason "prompt_size_exceeded": the
returned job records no prompt size, no model latency, no prompt history and
no conversation tokens — the model client and the compile backend are never
consulted, as the same return value for every oracle shows. -/
theorem c4_prompt_size_guard (env : IterEnv) (iteration : Nat) (job : ExecutionJob)
    (hc : env.ctxDone = false) (ht : env.timedOut = false)
    (hsz : (buildPrompt job iteration).2 > MaxPromptSize) :
    stepIteration env iteration job = StepRes.ret { job with
        Status := "aborted", AbortReason := "prompt_size_exceeded",
        Metrics := { job.Metrics with IterationCount := iteration } }
    ∧ ∀ env2 : IterEnv, env2.ctxDone = false → env2.timedOut = false →
        stepIteration env2 iteration job = stepIteration env iteration job := by
  have hsz2 : (buildPrompt
      { job with Metrics := { job.Metrics with IterationCount := iteration } }
      iteration).2 > MaxPromptSize := by
    rw [buildPrompt_iterCount]; exact hsz
  constructor
  · simp only [stepIteration, hc, ht, Bool.false_eq_true, if_false, if_pos hsz2]
  · intro env2 hc2 ht2
    simp only [stepIteration, hc, ht, hc2, ht2, Bool.false_eq_true, if_false,
      if_pos hsz2]

/-- A job whose user prompt alone is one character over MaxPromptSize. -/
def jobHugePrompt : ExecutionJob :=
  { jobBase with UserPrompt := List.replicate 51201 'a' }

/-- An environment with no cancellation and no timeout. -/
def envQuiet : IterEnv :=
  { ctxDone := false, timedOut := false, llm := LLMOutcome.failure, llmTime := 0,
    compile := CompileOutcome.failure }

/-- C4 witness: the loop body on the oversized-prompt job aborts with
"prompt_size_exceeded" without touching the oracles. -/
theorem c4_witness :
    stepIteration envQuiet 1 jobHugePrompt = StepRes.ret { jobHugePrompt with
      Status := "aborted", AbortReason := "prompt_size_exceeded",
      Metrics := { jobHugePrompt.Metrics with IterationCount := 1 } } :=
  (c4_prompt_size_guard envQuiet 1 jobHugePrompt rfl rfl (by
    have h1 : (buildPrompt jobHugePrompt 1).2
        = (List.replicate 51201 'a' ++ ([] : List Char) ++ []).length := rfl
    rw [h1, List.length_append, List.length_append, List.length_replicate]
    decide)).1

/-- C6 (confirmed).  classifyGoError evaluates its pattern categories in the
strict order infrastructure, syntax, type, runtime on the lowercased output
(each pattern lowercased, substring match): any infrastructure hit decides
the result irrespective of other categories, each later category decides only
when all earlier ones miss, and when every category misses the result falls
back to logic on non-empty test diagnostics, then type on non-empty compile
diagnostics, else unknown. -/
theorem c6_classifier_precedence (output : List Char) (ce te : List (List Char)) :
    ((∃ p, p ∈ infraPatterns ∧ containsSub (toLowerCL output) (toLowerCL p) = true) →
      classifyGoError output ce te = ErrorTypeGo.infrastructure)
    ∧ (matchesAny (toLowerCL output) infraPatterns = false →
        matchesAny (toLowerCL output) syntaxPatterns = true →
      classifyGoError output ce te = ErrorTypeGo.syntaxError)
    ∧ (matchesAny (toLowerCL output) infraPatterns = false →
        matchesAny (toLowerCL output) syntaxPatterns = false →
        matchesAny (toLowerCL output) typePatterns = true →
      classifyGoError output ce te = ErrorTypeGo.typeError)
    ∧ (matchesAny (toLowerCL output) infraPatterns = false →
        matchesAny (toLowerCL output) syntaxPatterns = false →
        matchesAny (toLowerCL output) typePatterns = false →
        matchesAny (toLowerCL output) runtimePatterns = true →
      classifyGoError output ce te = ErrorTypeGo.runtime)
    ∧ (matchesAny (toLowerCL output) infraPatterns = false →
        matchesAny (toLowerCL output) syntaxPatterns = false →
        matchesAny (toLowerCL output) typePatterns = false →
        matchesAny (toLowerCL output) runtimePatterns = false →
      classifyGoError output ce te =
        (if 0 < te.length then ErrorTypeGo.logic
         else if 0 < ce.length then ErrorTypeGo.typeError
         else ErrorTypeGo.unknown)) := by
  refine ⟨?_, ?_, ?_, ?_, ?_⟩
  · intro hex
    have hinf : matchesAny (toLowerCL output) infraPatterns = true := by
      rcases hex with ⟨p, hp, hcp⟩
      simp only [matchesAny, List.any_eq_true]
      exact ⟨p, hp, hcp⟩
    simp only [classifyGoError, hinf, if_true]
  · intro h1 h2
    simp only [classifyGoError, h1, h2, Bool.false_eq_true, if_false, if_true]
  · intro h1 h2 h3
    simp only [classifyGoError, h1, h2, h3, Bool.false_eq_true, if_false, if_true]
  · intro h1 h2 h3 h4
    simp only [classifyGoError, h1, h2, h3, h4, Bool.false_eq_true, if_false, if_true]
  · intro h1 h2 h3 h4
    simp only [classifyGoError, h1, h2, h3, h4, Bool.false_eq_true, if_false]

/-- C6 witness: an output that holds both an infrastructure pattern and a
syntax pattern is classified as infrastructure (precedence), shown by the
first conjunct of the precedence theorem at a concrete input. -/
theorem c6_witness :
    classifyGoError "go.mod already exists; also a syntax error here".toList
        [] ["FAIL: TestX".toList]
      = ErrorTypeGo.infrastructure :=
  (c6_classifier_precedence
      "go.mod already exists; also a syntax error here".toList
      [] ["FAIL: TestX".toList]).1
    ⟨"go.mod already exists".toList, by decide, by decide⟩

/-- A string starts with itself, whatever follows. -/
lemma startsWith_append_self (p t : List Char) : startsWithCL (p ++ t) p = true := by
  induction p with
  | nil => simp [startsWithCL]
  | cons a p ih => simp [startsWithCL, ih]

/-- A match at the head is an occurrence. -/
lemma containsSub_of_startsWith (s p : List Char) (h : startsWithCL s p = true) :
    containsSub s p = true := by
  cases s with
  | nil => simpa [containsSub] using h
  | cons a s => simp [containsSub, h]

/-- An occurrence survives prepending. -/
lemma containsSub_append_left (a s p : List Char) (h : containsSub s p = true) :
    containsSub (a ++ s) p = true := by
  induction a with
  | nil => simpa
  | cons c a ih => simp [containsSub, ih]

/-- A pattern occurs in any string of the shape `a ++ (p ++ b)`. -/
lemma containsSub_mid (a b p : List Char) : containsSub (a ++ (p ++ b)) p = true :=
  containsSub_append_left a _ p (containsSub_of_startsWith _ p (startsWith_append_self p b))

/-- C7 (confirmed).  Whenever the generic fenced-block regex finds at least
two blocks in the input and both are non-empty after trimming, the first
strategy of the chain succeeds with the first block as main code and the
second as test code, and the Extractor — a pure function, hence the same
answer on every call — selects exactly the strategy name
"standard_format" for that input. -/
theorem c7_standard_format (response b0 b1 : List Char) (rest : List (List Char))
    (hblocks : findCodeBlocks response = b0 :: b1 :: rest)
    (h0 : trimSpace b0 ≠ []) (h1 : trimSpace b1 ≠ []) :
    standardFormatExtract response = some (trimSpace b0, trimSpace b1)
    ∧ extractorExtract response
        = some (trimSpace b0, trimSpace b1, "standard_format") := by
  have e0 : ((trimSpace b0).length == 0) = false := by
    simp only [beq_eq_false_iff_ne, ne_eq, List.length_eq_zero]
    exact h0
  have e1 : ((trimSpace b1).length == 0) = false := by
    simp only [beq_eq_false_iff_ne, ne_eq, List.length_eq_zero]
    exact h1
  have hs : standardFormatExtract response = some (trimSpace b0, trimSpace b1) := by
    simp only [standardFormatExtract, hblocks, e0, e1, Bool.or_self,
      Bool.false_eq_true, if_false]
  exact ⟨hs, by simp only [extractorExtract, hs]⟩

/-- A model answer holding two well-formed go-tagged fenced blocks. -/
def respTwoBlocks : List Char :=
  ("```go\nfunc main() {}\n```\nand\n```go\nfunc TestX() {}\n```").toList

/-- C7 witness: on the two-block answer the extractor returns the two trimmed
blocks under the standard_format strategy. -/
theorem c7_witness :
    extractorExtract respTwoBlocks
      = some (trimSpace "func main() {}\n".toList,
          trimSpace "func TestX() {}\n".toList, "standard_format") :=
  (c7_standard_format respTwoBlocks "func main() {}\n".toList
    "func TestX() {}\n".toList [] (by decide) (by decide) (by decide)).2

/-- C9 (confirmed).  From the second iteration on, with a non-empty error
history, buildPrompt appends the feedback section: it contains the previous
error kind's name and the last diagnostic message cut at the 500-character
budget (the kept part is the first 500 characters; with the ellipsis marker
the section's message part never exceeds 503 characters), and it ends with
the fix-and-regenerate instruction.  At iteration 1 the prompt is exactly
the base prompt — no feedback is appended. -/
theorem c9_prompt_feedback (job : ExecutionJob) (iteration : Nat)
    (hit : 1 < iteration) (hh : job.LLMCtx.ErrorHistory ≠ []) :
    ((buildPrompt job iteration).1 = basePrompt job ++ feedbackSection job iteration
      ∧ (buildPrompt job iteration).2
          = (basePrompt job ++ feedbackSection job iteration).length)
    ∧ containsSub (feedbackSection job iteration)
        (errorTypeString job.Metrics.LastErrorType) = true
    ∧ containsSub (feedbackSection job iteration)
        (truncate job.LLMCtx.LastErrorMessage 500) = true
    ∧ (truncate job.LLMCtx.LastErrorMessage 500).take 500
        = job.LLMCtx.LastErrorMessage.take 500
    ∧ (truncate job.LLMCtx.LastErrorMessage 500).length ≤ 503
    ∧ (∃ pre, feedbackSection job iteration
        = pre ++ "Please fix the error and regenerate the code.\n".toList)
    ∧ (buildPrompt job 1).1 = basePrompt job := by
  have hcond : 1 < iteration ∧ 0 < job.LLMCtx.ErrorHistory.length :=
    ⟨hit, List.length_pos.mpr hh⟩
  refine ⟨⟨?_, ?_⟩, ?_, ?_, ?_, ?_, ?_, ?_⟩
  · simp only [buildPrompt, if_pos hcond]
  · simp only [buildPrompt, if_pos hcond]
  · have hshape : feedbackSection job iteration
        = ("\n\n=== ERROR FEEDBACK FROM ITERATION ".toList
            ++ Nat.toDigits 10 (iteration - 1) ++ " ===\n".toList
            ++ "Error Type: ".toList)
          ++ (errorTypeString job.Metrics.LastErrorType
            ++ ("\n".toList ++ "Error Message: ".toList
              ++ truncate job.LLMCtx.LastErrorMessage 500 ++ "\n".toList
              ++ "Please fix the error and regenerate the code.\n".toList)) := by
      simp [feedbackSection, List.append_assoc]
    rw [hshape]
    exact containsSub_mid _ _ _
  · have hshape : feedbackSection job iteration
        = ("\n\n=== ERROR FEEDBACK FROM ITERATION ".toList
            ++ Nat.toDigits 10 (iteration - 1) ++ " ===\n".toList
            ++ "Error Type: ".toList
            ++ errorTypeString job.Metrics.LastErrorType ++ "\n".toList
            ++ "Error Message: ".toList)
          ++ (truncate job.LLMCtx.LastErrorMessage 500
            ++ ("\n".toList
              ++ "Please fix the error and regenerate the code.\n".toList)) := by
      simp [feedbackSection, List.append_assoc]
    rw [hshape]
    exact containsSub_mid _ _ _
  · unfold truncate
    split
    · rfl
    · next h =>
      have hlen : (job.LLMCtx.LastErrorMessage.take 500).length = 500 := by
        rw [List.length_take]
        omega
      rw [List.take_left' hlen]
  · unfold truncate
    split
    · next h => omega
    · next h =>
      have hlen : (job.LLMCtx.LastErrorMessage.take 500).length = 500 := by
        rw [List.length_take]
        omega
      simp [List.length_append, hlen]
  · refine ⟨"\n\n=== ERROR FEEDBACK FROM ITERATION ".toList
      ++ Nat.toDigits 10 (iteration - 1) ++ " ===\n".toList
      ++ "Error Type: ".toList
      ++ errorTypeString job.Metrics.LastErrorType ++ "\n".toList
      ++ "Error Message: ".toList
      ++ truncate job.LLMCtx.LastErrorMessage 500 ++ "\n".toList, ?_⟩
    simp [feedbackSection, List.append_assoc]
  · simp [buildPrompt]

/-- A job that has seen one syntax error, with its diagnostic recorded. -/
def jobFeedback : ExecutionJob :=
  { jobBase with
    LLMCtx := { emptyLLMCtx with
      ErrorHistory := [ErrorType.syntaxError],
      LastErrorMessage := "boom".toList },
    Metrics := { emptyMetrics with LastErrorType := ErrorType.syntaxError } }

/-- C9 witness: at iteration 2 the prompt for the job with one recorded error
is the base prompt followed by the feedback section. -/
theorem c9_witness :
    (buildPrompt jobFeedback 2).1
      = basePrompt jobFeedback ++ feedbackSection jobFeedback 2 :=
  (c9_prompt_feedback jobFeedback 2 (by decide) (by decide)).1.1

/-- The single-file strategy fails only when the input has no fenced block at
all and is at most 50 characters long: with a block present, both of its
branches succeed. -/
lemma singleFile_none (s : List Char) (h : singleFileExtract s = none) :
    findCodeBlocks s = [] ∧ s.length ≤ 50 := by
  cases hb : findCodeBlocks s with
  | nil =>
    unfold singleFileExtract at h
    rw [hb] at h
    dsimp only at h
    refine ⟨rfl, ?_⟩
    by_contra hlen
    push_neg at hlen
    rw [if_pos hlen] at h
    exact Option.noConfusion h
  | cons b0 bs =>
    exfalso
    unfold singleFileExtract at h
    rw [hb] at h
    dsimp only at h
    split at h <;> exact Option.noConfusion h

/-- When the whole chain fails, in particular its last strategy failed. -/
lemma extractor_none (s : List Char) (h : extractorExtract s = none) :
    singleFileExtract s = none := by
  unfold extractorExtract at h
  cases h1 : standardFormatExtract s with
  | some v => obtain ⟨m, t⟩ := v; rw [h1] at h; simp at h
  | none =>
  rw [h1] at h
  cases h2 : languageTagExtract s with
  | some v => obtain ⟨m, t⟩ := v; rw [h2] at h; simp at h
  | none =>
  rw [h2] at h
  cases h3 : testMarkerExtract s with
  | some v => obtain ⟨m, t⟩ := v; rw [h3] at h; simp at h
  | none =>
  rw [h3] at h
  cases h4 : packageMainExtract s with
  | some v => obtain ⟨m, t⟩ := v; rw [h4] at h; simp at h
  | none =>
  rw [h4] at h
  cases h5 : singleFileExtract s with
  | some v => obtain ⟨m, t⟩ := v; rw [h5] at h; simp at h
  | none => rfl

/-- A successful chain result carries one of the five registered strategy
names. -/
lemma extractorExtract_names (s m t : List Char) (n : String)
    (h : extractorExtract s = some (m, t, n)) :
    n = "standard_format" ∨ n = "language_tag_split" ∨ n = "test_marker_split"
      ∨ n = "package_main_split" ∨ n = "single_file_fallback" := by
  unfold extractorExtract at h
  cases h1 : standardFormatExtract s with
  | some v =>
    obtain ⟨a, b⟩ := v; rw [h1] at h; simp at h
    exact Or.inl h.2.2.symm
  | none =>
  rw [h1] at h
  cases h2 : languageTagExtract s with
  | some v =>
    obtain ⟨a, b⟩ := v; rw [h2] at h; simp at h
    exact Or.inr (Or.inl h.2.2.symm)
  | none =>
  rw [h2] at h
  cases h3 : testMarkerExtract s with
  | some v =>
    obtain ⟨a, b⟩ := v; rw [h3] at h; simp at h
    exact Or.inr (Or.inr (Or.inl h.2.2.symm))
  | none =>
  rw [h3] at h
  cases h4 : packageMainExtract s with
  | some v =>
    obtain ⟨a, b⟩ := v; rw [h4] at h; simp at h
    exact Or.inr (Or.inr (Or.inr (Or.inl h.2.2.symm)))
  | none =>
  rw [h4] at h
  cases h5 : singleFileExtract s with
  | some v =>
    obtain ⟨a, b⟩ := v; rw [h5] at h; simp at h
    exact Or.inr (Or.inr (Or.inr (Or.inr h.2.2.symm)))
  | none => rw [h5] at h; simp at h

/-- C10 (confirmed).  ExtractWithFallback never answers with the label
"emergency_fallback": the emergency branch requires the chain to have failed
while the generic regex still finds a block, but the single-file strategy
(same regex, last in the chain) succeeds on every input with a block, so a
chain failure forces the no-block case and the only post-chain outcome is
"raw_response" carrying the trimmed input and empty test code. -/
theorem c10_no_emergency_fallback (response : List Char) :
    (extractWithFallback response).2.2 ≠ "emergency_fallback"
    ∧ (extractorExtract response = none →
        extractWithFallback response = (trimSpace response, [], "raw_response")) := by
  have hraw : extractorExtract response = none →
      extractWithFallback response = (trimSpace response, [], "raw_response") := by
    intro he
    have h5 := extractor_none response he
    obtain ⟨hb, -⟩ := singleFile_none response h5
    simp only [extractWithFallback, he, hb]
  refine ⟨?_, hraw⟩
  cases he : extractorExtract response with
  | some v =>
    obtain ⟨m, t, n⟩ := v
    have hn := extractorExtract_names response m t n he
    have hval : extractWithFallback response = (m, t, n) := by
      simp only [extractWithFallback, he]
    rw [hval]
    rcases hn with h | h | h | h | h <;> simp [h]
  | none =>
    rw [hraw he]
    simp

/-- C10 witness: a short fence-free input falls through the whole chain and
returns via raw_response. -/
theorem c10_witness :
    extractWithFallback "hi".toList = (trimSpace "hi".toList, [], "raw_response") :=
  (c10_no_emergency_fallback "hi".toList).2 (by decide)

/-- A verified head match decomposes the string. -/
lemma startsWith_eq_append (s p : List Char) (h : startsWithCL s p = true) :
    s = p ++ s.drop p.length := by
  induction p generalizing s with
  | nil => simp
  | cons b p ih =>
    cases s with
    | nil => simp [startsWithCL] at h
    | cons a s =>
      simp only [startsWithCL, Bool.and_eq_true, beq_iff_eq] at h
      obtain ⟨rfl, h2⟩ := h
      simp only [List.length_cons, List.drop_succ_cons, List.cons_append,
        List.cons.injEq, true_and]
      exact ih s h2

/-- A head match survives appending on the right. -/
lemma startsWith_weaken (a p t : List Char) (h : startsWithCL a p = true) :
    startsWithCL (a ++ t) p = true := by
  induction p generalizing a with
  | nil => simp [startsWithCL]
  | cons b p ih =>
    cases a with
    | nil => simp [startsWithCL] at h
    | cons c a =>
      simp only [startsWithCL, Bool.and_eq_true] at h
      simp only [List.cons_append, startsWithCL, Bool.and_eq_true]
      exact ⟨h.1, ih a h.2⟩

/-- A position opening a go-tagged fence also opens a generic fence with the
same body: after the three backticks, the maximal lowercase run is exactly
"go" and the newline follows. -/
lemma goHead_generic (s b : List Char) (h : matchGoFenceHead s = some b) :
    matchFenceHead s = some b := by
  unfold matchGoFenceHead at h
  by_cases hs : startsWithCL s goFence = true
  · rw [if_pos hs] at h
    have hb : s.drop goFence.length = b := Option.some.inj h
    have hseq := startsWith_eq_append s goFence hs
    rw [hb] at hseq
    rw [hseq]
    unfold matchFenceHead
    rw [if_pos (startsWith_weaken goFence fence3 b (by decide))]
    have h3 : (goFence ++ b).drop 3 = ['g', 'o', '\n'] ++ b := by
      have hf : goFence ++ b = fence3 ++ (['g', 'o', '\n'] ++ b) := by
        simp [goFence, List.append_assoc]
      rw [hf]
      have h3l : (3 : Nat) = fence3.length := by decide
      rw [h3l]
      exact List.drop_left fence3 _
    rw [h3]
    have hdw : List.dropWhile isLowerAlpha ('g' :: 'o' :: '\n' :: b) = '\n' :: b := by
      simp [List.dropWhile, isLowerAlpha]
    simp only [List.cons_append, List.nil_append] at hdw ⊢
    rw [hdw]
    simp
  · rw [if_neg hs] at h
    exact Option.noConfusion h

/-- The parallel scan: wherever the generic scan finds no block, the
go-tagged scan finds none either (every go-fence opening is a generic fence
opening with the same body, hence the same missing closure). -/
lemma goBlocksAux_nil (fuel : Nat) :
    ∀ s, findBlocksAux fuel s = [] → findGoBlocksAux fuel s = [] := by
  induction fuel with
  | zero => intro s _; rfl
  | succ fuel ih =>
    intro s h
    cases s with
    | nil => rfl
    | cons c rest =>
      simp only [findBlocksAux] at h
      simp only [findGoBlocksAux]
      cases hg : matchGoFenceHead (c :: rest) with
      | some gbody =>
        have hgen : matchFenceHead (c :: rest) = some gbody := goHead_generic _ _ hg
        rw [hgen] at h
        dsimp only at h ⊢
        cases hsp : splitAtFence gbody with
        | some p =>
          obtain ⟨cap, rem⟩ := p
          rw [hsp] at h
          simp at h
        | none =>
          rw [hsp] at h
          dsimp only at h
          exact ih rest h
      | none =>
        dsimp only
        cases hm : matchFenceHead (c :: rest) with
        | some body =>
          rw [hm] at h
          dsimp only at h
          cases hsp : splitAtFence body with
          | some p =>
            obtain ⟨cap, rem⟩ := p
            rw [hsp] at h
            simp at h
          | none =>
            rw [hsp] at h
            dsimp only at h
            exact ih rest h
        | none =>
          rw [hm] at h
          dsimp only at h
          exact ih rest h

/-- When the generic regex finds no fenced block, neither does the go-tagged
regex. -/
lemma goBlocks_nil (s : List Char) (h : findCodeBlocks s = []) :
    findGoBlocks s = [] :=
  goBlocksAux_nil s.length s h

/-- A string containing a non-whitespace character does not trim to empty. -/
lemma trimSpace_ne_nil (s : List Char) (h : s.any (fun c => !isSpaceChar c) = true) :
    trimSpace s ≠ [] := by
  obtain ⟨c, hc, hcs⟩ := List.any_eq_true.mp h
  simp only [Bool.not_eq_true'] at hcs
  intro hnil
  unfold trimSpace at hnil
  rw [List.reverse_eq_nil_iff, List.dropWhile_eq_nil_iff] at hnil
  have hc1 : c ∈ s.dropWhile isSpaceChar := by
    have hsplit := List.takeWhile_append_dropWhile (p := isSpaceChar) (l := s)
    have hc' : c ∈ s.takeWhile isSpaceChar ++ s.dropWhile isSpaceChar := by
      rw [hsplit]; exact hc
    rcases List.mem_append.mp hc' with h1 | h2
    · exact absurd (List.mem_takeWhile_imp h1) (by simp [hcs])
    · exact h2
  have := hnil c (List.mem_reverse.mpr hc1)
  rw [hcs] at this
  exact Bool.noConfusion this

/-- An input of 51 blanks: over 50 characters, no fence, yet the single-file
fallback returns an empty main code. -/
def spaces51 : List Char := List.replicate 51 ' '

/-- A fence-free model answer over 50 characters holding a line-start
"func Test" marker. -/
def markerResp : List Char :=
  ("func Add(a, b int) int { return a + b }\nfunc TestAdd(t *T) { check(t) }").toList

/-- C8 counterexample.  The claim — any input with zero fenced blocks and
more than 50 characters returns via the single-block or raw-response
fallback with non-empty main code — fails twice: 51 blanks reach the
single-file fallback but yield empty main code, and a fence-free answer with
a "func Test" line is taken by the earlier test-marker strategy instead of a
fallback. -/
theorem c8_counterexample :
    (findCodeBlocks spaces51 = [] ∧ spaces51.length > 50
      ∧ extractWithFallback spaces51 = ([], [], "single_file_fallback"))
    ∧ (findCodeBlocks markerResp = [] ∧ markerResp.length > 50
      ∧ (extractWithFallback markerResp).2.2 = "test_marker_split") := by
  decide

/-- C8 (corrected).  For an input with zero fenced blocks, more than 50
characters, at least one non-whitespace character, no line-start
"func Test" marker and fewer than two "package main" occurrences, the chain
degrades to the single-file fallback, returning the trimmed input as main
code — which is then non-empty — with empty test code. -/
theorem c8_raw_fallback_nonempty (response : List Char)
    (hblocks : findCodeBlocks response = [])
    (hlen : response.length > 50)
    (hws : response.any (fun c => !isSpaceChar c) = true)
    (hmarker : findMarkerIdx response = none)
    (hsplit : (splitOnSub pmLit response).length < 3) :
    extractWithFallback response = (trimSpace response, [], "single_file_fallback")
    ∧ trimSpace response ≠ [] := by
  have hstd : standardFormatExtract response = none := by
    unfold standardFormatExtract
    rw [hblocks]
  have hlt : languageTagExtract response = none := by
    unfold languageTagExtract
    rw [goBlocks_nil response hblocks]
  have htm : testMarkerExtract response = none := by
    unfold testMarkerExtract
    rw [hmarker]
  have hpm : packageMainExtract response = none := by
    unfold packageMainExtract
    rcases hsp : splitOnSub pmLit response with _ | ⟨a, _ | ⟨b, _ | ⟨c, l3⟩⟩⟩
    · rfl
    · rfl
    · rfl
    · exfalso
      rw [hsp] at hsplit
      simp [List.length_cons] at hsplit
      omega
  have hsf : singleFileExtract response = some (trimSpace response, []) := by
    unfold singleFileExtract
    rw [hblocks]
    dsimp only
    rw [if_pos hlen]
  have hchain : extractorExtract response
      = some (trimSpace response, [], "single_file_fallback") := by
    simp only [extractorExtract, hstd, hlt, htm, hpm, hsf]
  refine ⟨?_, trimSpace_ne_nil response hws⟩
  simp only [extractWithFallback, hchain]

/-- C8 witness: the plain fence-free answer satisfies all hypotheses of the
corrected claim and returns its trimmed text as non-empty main code via the
single-file fallback. -/
theorem c8_witness :
    extractWithFallback respPlain = (trimSpace respPlain, [], "single_file_fallback")
    ∧ trimSpace respPlain ≠ [] :=
  c8_raw_fallback_nonempty respPlain (by decide) (by decide) (by decide)
    (by decide) (by decide)

end SelfHealing



